import Mathlib

/-!
# Verification of the FFmpeg Split Audio node

Shallow embedding of `src/nodes/FfmpegSplitAudio/FfmpegSplitAudio.node.ts`.

Conventions of the embedding:
* JavaScript numbers are modelled as exact rationals (`ℚ`); the call
  `parseFloat(x.toFixed(2))` is modelled as exact rounding to a multiple of
  1/100 (`round2`).  A value exactly halfway between two hundredths is a
  tie: there the direction `toFixed` takes depends on whether the binary
  double of the source sits below or above the decimal midpoint, which the
  rational model does not track.  Theorems that rely on a rounded value
  therefore exclude tie boundaries (`isCentiTie`), and every evaluated
  input keeps all its boundaries clear of ties, where the double and the
  exact rational round identically.
* The `while (currentStart < totalDuration)` loop of the Calculate Segments
  operation is modelled with an explicit fuel parameter (`planLoop`); the
  value `none` means the loop has not exited within the given fuel, and the
  top-level `calcSegments` supplies fuel strictly larger than the number of
  iterations the loop performs whenever it terminates, so `calcSegments`
  returns `none` exactly on the non-terminating inputs.
* Filesystem and child-process effects are modelled as a trace of `Event`
  values; external behaviour (the ffmpeg probe output, extraction exit codes,
  unlink outcomes) is supplied by oracles.
-/

/-- Models `parseFloat(q.toFixed(2))`: rounding to 2 decimal digits.  Away
from exact half-centisecond ties the IEEE double the source holds and the
exact rational round to the same hundredth, so the definition is faithful
there; on a tie the source direction depends on the binary double (for
example the double nearest 0.015 lies below the midpoint and yields 0.01),
while this exact definition takes the upper branch — theorems that depend
on rounded values exclude ties via `isCentiTie`, and no evaluated input
places a boundary on a tie. -/
def round2 (q : ℚ) : ℚ := (⌊q * 100 + 1 / 2⌋ : ℤ) / 100

/-- One element of the `segments` array built by the Calculate Segments loop.
The source field `end` is a Lean keyword, hence the guillemets. -/
structure Segment where
  index : ℕ
  start : ℚ
  «end» : ℚ
deriving DecidableEq

/-- The planning loop of lines 192-201 of the source: while
`currentStart < totalDuration`, push `{index, start, end}` with both bounds
rounded to 2 decimals, then advance `currentStart` by `segmentLength - overlap`.
Fuel-indexed; `none` means the fuel was exhausted before the loop exited. -/
def planLoop (segmentLength overlap totalDuration : ℚ) :
    ℕ → ℚ → ℕ → Option (List Segment)
  | 0, _, _ => none
  | fuel + 1, currentStart, segmentIndex =>
    if currentStart < totalDuration then
      match planLoop segmentLength overlap totalDuration fuel
          (currentStart + (segmentLength - overlap)) (segmentIndex + 1) with
      | none => none
      | some rest =>
        some ({ index := segmentIndex,
                start := round2 currentStart,
                «end» := round2 (min (currentStart + segmentLength) totalDuration) } :: rest)
    else
      some []

/-- Number of iterations the loop performs when the step is positive:
`⌈totalDuration / (segmentLength - overlap)⌉`, clamped to `ℕ`. -/
def segCount (segmentLength overlap totalDuration : ℚ) : ℕ :=
  (⌈totalDuration / (segmentLength - overlap)⌉).toNat

/-- Fuel bound used by `calcSegments`: one more than the iteration count of a
terminating run. -/
def planFuel (segmentLength overlap totalDuration : ℚ) : ℕ :=
  segCount segmentLength overlap totalDuration + 1

/-- The segment plan computed by the Calculate Segments operation
(lines 187-201 of the source), starting at `currentStart = 0`,
`segmentIndex = 0`.  `none` models the non-terminating loop. -/
def calcSegments (segmentLength overlap totalDuration : ℚ) : Option (List Segment) :=
  planLoop segmentLength overlap totalDuration
    (planFuel segmentLength overlap totalDuration) 0 0

/-- Unrounded start of the k-th segment: the loop variable `currentStart`
after `k` advances. -/
def rawStart (segmentLength overlap : ℚ) (k : ℕ) : ℚ :=
  (k : ℚ) * (segmentLength - overlap)

/-- Unrounded end of the k-th segment: `min(currentStart + segmentLength,
totalDuration)` at the k-th iteration. -/
def rawEnd (segmentLength overlap totalDuration : ℚ) (k : ℕ) : ℚ :=
  min (rawStart segmentLength overlap k + segmentLength) totalDuration

/-- The k-th segment before the 2-decimal rounding. -/
def rawSeg (segmentLength overlap totalDuration : ℚ) (k : ℕ) : Segment :=
  { index := k,
    start := rawStart segmentLength overlap k,
    «end» := rawEnd segmentLength overlap totalDuration k }

/-- The 2-decimal rounding applied to both bounds of a segment. -/
def roundSeg (s : Segment) : Segment :=
  { index := s.index, start := round2 s.start, «end» := round2 s.«end» }

/-! ## Strings and filenames -/

/-- Left-pad a decimal string with zeros to `k` digits (used for the
fractional part of a decimal rendering). -/
def padZeros (k : ℕ) (s : String) : String :=
  String.mk (List.replicate (k - s.length) '0') ++ s

/-- Decimal rendering of a non-negative rational with a finite decimal
expansion, without trailing zeros — the JavaScript `ToString` of such a
number.  Rationals outside that domain are rendered as a fraction; they never
arise at the inputs evaluated here. -/
def ratDecString (a : ℚ) : String :=
  if a.den = 1 then Nat.repr a.num.toNat
  else
    match (List.range 20).find? (fun j => (a * (10 : ℚ) ^ (j + 1)).den == 1) with
    | some j =>
      let k := j + 1
      let m := (a * (10 : ℚ) ^ k).num.toNat
      Nat.repr (m / 10 ^ k) ++ "." ++ padZeros k (Nat.repr (m % 10 ^ k))
    | none => Nat.repr a.num.toNat ++ "/" ++ Nat.repr a.den

/-- JavaScript number-to-string conversion as used by template literals,
restricted to the finite-decimal rationals of this model. -/
def jsNumToString (q : ℚ) : String :=
  if q < 0 then "-" ++ ratDecString (-q) else ratDecString q

/-- Models the replace call that drops a final extension (the regex
`\.[^/.]+$`): a dot followed by at least one character none of which is a
dot or a slash is removed from the end. -/
def stripExt (s : String) : String :=
  let rev := s.data.reverse
  let tl := rev.takeWhile (fun c => c != '.' && c != '/')
  if tl.isEmpty then s
  else
    match rev.dropWhile (fun c => c != '.' && c != '/') with
    | '.' :: rs => String.mk rs.reverse
    | _ => s

/-- Models the fallback `binaryData.fileName || audio`: an absent or empty
filename falls back to the fixed token. -/
def originalName (fileName : Option String) : String :=
  match fileName with
  | some s => if s = "" then "audio" else s
  | none => "audio"

/-- Models the fallback `binaryData.fileExtension || m4a`. -/
def fileExtOf (fileExtension : Option String) : String :=
  match fileExtension with
  | some s => if s = "" then "m4a" else s
  | none => "m4a"

/-! ## The per-record effect model

Temporary paths carry the ingredients of the generated names
(`input_${Date.now()}_${itemIndex}.${ext}`,
`output_${Date.now()}_${itemIndex}_${segment.index}.${ext}`,
`output_${Date.now()}_${itemIndex}.${ext}`); the wall-clock component is
abstracted away. -/

inductive TempPath where
  | input (itemIndex : ℕ) (ext : String)
  | segOutput (itemIndex : ℕ) (segIndex : ℕ) (ext : String)
  | pointOutput (itemIndex : ℕ) (ext : String)
deriving DecidableEq

/-- Observable filesystem / child-process effects of one record, in order.
`unlinkAttempt` records the outcome reported by the oracle; the code ignores
it (the catch handler does nothing). -/
inductive Event where
  | writeTemp (path : TempPath)
  | engineProbe (input : TempPath)
  | engineExtract (input : TempPath) (start duration : ℚ) (output : TempPath)
  | readTemp (path : TempPath)
  | unlinkAttempt (path : TempPath) (ok : Bool)
deriving DecidableEq

deriving instance DecidableEq for Except

/-- Errors thrown inside the per-record `try` body. -/
inductive ProcError where
  | durationUnavailable
  | invalidTimeRange
  | engineFailed (diagnostic : String)
deriving DecidableEq

/-- The `message` of the thrown `Error`. -/
def ProcError.message : ProcError → String
  | .durationUnavailable => "Could not extract duration from audio file"
  | .invalidTimeRange => "End time must be greater than start time"
  | .engineFailed d => d

/-- The `json` part of an emitted record. -/
inductive JsonOut where
  | planSummary (totalDuration segmentLength overlap : ℚ)
      (segmentCount : ℕ) (segments : List Segment)
  | extractSummary (startTime endTime duration : ℚ)
  | errorOut (message : String)
deriving DecidableEq

/-- One named binary payload of an emitted record: the property name in the
`binary` map and the filename handed to `prepareBinaryData`. -/
structure BinaryEntry where
  prop : String
  fileName : String
deriving DecidableEq

/-- One record pushed onto `returnData`. -/
structure OutputRecord where
  json : JsonOut
  binary : List BinaryEntry
  pairedItem : ℕ
deriving DecidableEq

/-- Parameters of the Calculate Segments operation. -/
structure CalcSegParams where
  segmentLength : ℚ
  overlap : ℚ
  outputSegments : Bool
deriving DecidableEq

/-- Parameters of the Extract Segment operation. -/
structure ExtractParams where
  startTime : ℚ
  endTime : ℚ
  customFilename : String
  outputBinaryPropertyName : String
deriving DecidableEq

/-- The operation selected for the run, with its parameters. -/
inductive OpParams where
  | calculateSegments (p : CalcSegParams)
  | extractSegment (p : ExtractParams)
deriving DecidableEq

/-- One input record: binary metadata, parameters, and the data content of
the probe answer (`none` models a diagnostic stream in which the
`Duration: HH:MM:SS.ff` pattern is absent). -/
structure ItemData where
  fileName : Option String
  fileExtension : Option String
  binaryPropertyName : String
  op : OpParams
  probeOut : Option (ℕ × ℕ × ℚ)
deriving DecidableEq

/-- External behaviour: probe invocation outcome, per-segment extraction
outcomes (`none` = exit 0, `some d` = rejection with diagnostic `d`), the
point-extraction outcome, and unlink outcomes. -/
structure Oracles where
  probeExec : Option String
  engineResult : ℕ → Option String
  pointEngineResult : Option String
  unlinkOk : TempPath → Bool

/-- The binary property and filename generated for one segment in batch
extraction: property `${binaryPropertyName}_${segment.index + 1}`, filename
`${nameWithoutExt}_${segment.start}_${segment.end}.${fileExtension}`. -/
def segEntry (bpn nameWithoutExt ext : String) (sg : Segment) : BinaryEntry :=
  { prop := bpn ++ "_" ++ Nat.repr (sg.index + 1),
    fileName := nameWithoutExt ++ "_" ++ jsNumToString sg.start ++ "_" ++
      jsNumToString sg.«end» ++ "." ++ ext }

/-- The `for (const segment of segments)` loop of batch extraction
(lines 210-231): per segment, allocate the output path, invoke the engine
with `-ss segment.start -t (segment.end - segment.start)`, read the file
back.  Returns the collected entries (or the first engine error), the event
trace, and every allocated output path (pushed before the engine call, as in
the source). -/
def batchLoop (itemIndex : ℕ) (ext : String) (inputPath : TempPath)
    (bpn nameWithoutExt : String) (eng : ℕ → Option String) :
    List Segment → Except ProcError (List BinaryEntry) × List Event × List TempPath
  | [] => (Except.ok [], [], [])
  | sg :: rest =>
    let outPath := TempPath.segOutput itemIndex sg.index ext
    match eng sg.index with
    | some diag =>
      (Except.error (ProcError.engineFailed diag),
        [Event.engineExtract inputPath sg.start (sg.«end» - sg.start) outPath],
        [outPath])
    | none =>
      match batchLoop itemIndex ext inputPath bpn nameWithoutExt eng rest with
      | (res, evs, paths) =>
        ((res.map fun entries => segEntry bpn nameWithoutExt ext sg :: entries),
          Event.engineExtract inputPath sg.start (sg.«end» - sg.start) outPath ::
            Event.readTemp outPath :: evs,
          outPath :: paths)

/-- The Calculate Segments branch for one record (lines 163-263): write the
input temp file, probe the duration, run the planning loop, optionally run
batch extraction, and unlink every allocated temp path in the `finally`
blocks.  Returns `none` when the planning loop does not terminate (in the
source the `while` loop then never exits, so no cleanup runs either). -/
def runCalc (itemIndex : ℕ) (d : ItemData) (p : CalcSegParams) (orc : Oracles) :
    Option (Except ProcError OutputRecord × List Event) :=
  let ext := fileExtOf d.fileExtension
  let inputPath := TempPath.input itemIndex ext
  let pre := [Event.writeTemp inputPath, Event.engineProbe inputPath]
  let unlinkInput := Event.unlinkAttempt inputPath (orc.unlinkOk inputPath)
  match orc.probeExec with
  | some diag => some (Except.error (ProcError.engineFailed diag), pre ++ [unlinkInput])
  | none =>
    match d.probeOut with
    | none => some (Except.error ProcError.durationUnavailable, pre ++ [unlinkInput])
    | some (h, m, s) =>
      let totalDuration : ℚ := (h : ℚ) * 3600 + (m : ℚ) * 60 + s
      match calcSegments p.segmentLength p.overlap totalDuration with
      | none => none
      | some segments =>
        if p.outputSegments then
          let nameWithoutExt := stripExt (originalName d.fileName)
          match batchLoop itemIndex ext inputPath d.binaryPropertyName nameWithoutExt
              orc.engineResult segments with
          | (res, evs, paths) =>
            let cleanup := paths.map (fun q => Event.unlinkAttempt q (orc.unlinkOk q))
            match res with
            | Except.error e => some (Except.error e, pre ++ evs ++ cleanup ++ [unlinkInput])
            | Except.ok entries =>
              some (Except.ok
                { json := JsonOut.planSummary totalDuration p.segmentLength p.overlap
                    segments.length segments,
                  binary := entries,
                  pairedItem := itemIndex },
                pre ++ evs ++ cleanup ++ [unlinkInput])
        else
          some (Except.ok
            { json := JsonOut.planSummary totalDuration p.segmentLength p.overlap
                segments.length segments,
              binary := [],
              pairedItem := itemIndex },
            pre ++ [unlinkInput])

/-- The Extract Segment branch for one record (lines 264-320): the
`endTime <= startTime` check runs before any path is allocated or any file
written; then input temp write, one engine call, read-back, and the
`finally` that unlinks both temp paths. -/
def runExtract (itemIndex : ℕ) (d : ItemData) (p : ExtractParams) (orc : Oracles) :
    Option (Except ProcError OutputRecord × List Event) :=
  if p.endTime ≤ p.startTime then
    some (Except.error ProcError.invalidTimeRange, [])
  else
    let duration := p.endTime - p.startTime
    let ext := fileExtOf d.fileExtension
    let inputPath := TempPath.input itemIndex ext
    let outputPath := TempPath.pointOutput itemIndex ext
    let cleanup := [Event.unlinkAttempt inputPath (orc.unlinkOk inputPath),
      Event.unlinkAttempt outputPath (orc.unlinkOk outputPath)]
    match orc.pointEngineResult with
    | some diag =>
      some (Except.error (ProcError.engineFailed diag),
        Event.writeTemp inputPath ::
          Event.engineExtract inputPath p.startTime duration outputPath :: cleanup)
    | none =>
      let outputFilename :=
        if p.customFilename ≠ "" then p.customFilename
        else stripExt (originalName d.fileName) ++ "_" ++ jsNumToString p.startTime ++
          "_" ++ jsNumToString p.endTime ++ "." ++ ext
      some (Except.ok
        { json := JsonOut.extractSummary p.startTime p.endTime duration,
          binary := [{ prop := p.outputBinaryPropertyName, fileName := outputFilename }],
          pairedItem := itemIndex },
        Event.writeTemp inputPath ::
          Event.engineExtract inputPath p.startTime duration outputPath ::
          Event.readTemp outputPath :: cleanup)

/-- The per-record `try` body, dispatching on the operation. -/
def runItem (itemIndex : ℕ) (d : ItemData) (orc : Oracles) :
    Option (Except ProcError OutputRecord × List Event) :=
  match d.op with
  | OpParams.calculateSegments p => runCalc itemIndex d p orc
  | OpParams.extractSegment p => runExtract itemIndex d p orc

/-- The record emitted for a failed item in continue-on-fail mode:
`{json: {error: message}, pairedItem: index}`, no binary payload. -/
def errRecord (i : ℕ) (e : ProcError) : OutputRecord :=
  { json := JsonOut.errorOut e.message, binary := [], pairedItem := i }

/-- The item loop of `execute` (lines 157-336).  The result is the content
of `returnData` together with the error that aborted the run, if any;
`none` models a record whose planning loop never terminates. -/
def executeLoop (cof : Bool) (orc : ℕ → Oracles) :
    List ItemData → ℕ → Option (List OutputRecord × Option (ℕ × ProcError))
  | [], _ => some ([], none)
  | d :: rest, i =>
    match runItem i d (orc i) with
    | none => none
    | some (Except.ok out, _) =>
      (executeLoop cof orc rest (i + 1)).map fun (outs, err) => (out :: outs, err)
    | some (Except.error e, _) =>
      if cof then
        (executeLoop cof orc rest (i + 1)).map fun (outs, err) => (errRecord i e :: outs, err)
      else
        some ([], some (i, e))

/-- The whole run: items processed in order starting at index 0, with the
run-wide continue-on-fail switch. -/
def executeModel (cof : Bool) (orc : ℕ → Oracles) (items : List ItemData) :
    Option (List OutputRecord × Option (ℕ × ProcError)) :=
  executeLoop cof orc items 0

/-- The records a fully processed run emits: the success record of each item,
or the error record in place of a failed item. -/
def recordsFrom (orc : ℕ → Oracles) : ℕ → List ItemData → List OutputRecord
  | _, [] => []
  | i, d :: rest =>
    (match runItem i d (orc i) with
     | some (Except.ok out, _) => out
     | some (Except.error e, _) => errRecord i e
     | none => errRecord i ProcError.durationUnavailable) :: recordsFrom orc (i + 1) rest

/-- Paths of files the processing of the record creates: temp inputs written via
`writeFile` and engine outputs. -/
def createdPaths : List Event → List TempPath
  | [] => []
  | Event.writeTemp q :: tr => q :: createdPaths tr
  | Event.engineExtract _ _ _ q :: tr => q :: createdPaths tr
  | _ :: tr => createdPaths tr

/-- Paths whose deletion the trace attempts. -/
def unlinkedPaths (tr : List Event) : List TempPath :=
  tr.filterMap fun e =>
    match e with
    | Event.unlinkAttempt q _ => some q
    | _ => none

/-- Is the value exactly halfway between two multiples of 1/100 (for example
0.015 or 0.025)?  Exactly there `toFixed(2)` in the source rounds according
to which side of the midpoint the nearest binary double lies, which the
exact-rational model cannot see; theorems about rounded boundary values
exclude such ties.  `q` is a tie iff `q * 200` is an integer while `q * 100`
is not. -/
def isCentiTie (q : ℚ) : Bool :=
  (q * 200).den == 1 && (q * 100).den != 1

/-! ## Formalized claim statements used for counterexamples -/

/-- The segment-plan invariant exactly as the specification states it: first
start 0, last end `totalDuration`, every length at most `segmentLength`, and
consecutive starts advancing by the step (read conservatively: required for
all pairs before the final clamped segment). -/
def specSegProp (L o T : ℚ) (segs : List Segment) : Prop :=
  (segs.head?.map Segment.start) = some 0 ∧
  (segs.getLast?.map Segment.«end») = some T ∧
  (∀ sg ∈ segs, sg.«end» - sg.start ≤ L) ∧
  List.Chain' (fun a b => b.start = a.start + (L - o)) segs.dropLast

/-- The claim that the emitted plan itself satisfies the invariant. -/
def planSatisfies (L o T : ℚ) : Prop :=
  ∃ segs, calcSegments L o T = some segs ∧ specSegProp L o T segs

/-- Is this event an unlink attempt of path `q`? -/
def isUnlinkOf (q : TempPath) : Event → Bool
  | Event.unlinkAttempt r _ => decide (r = q)
  | _ => false

/-- Is this event an engine call creating output path `q`? -/
def isCreateOf (q : TempPath) : Event → Bool
  | Event.engineExtract _ _ _ r => decide (r = q)
  | _ => false

/-- Somewhere in the trace, an unlink of `p` happens strictly before an
engine call creating `q`. -/
def unlinkBeforeCreate (tr : List Event) (p q : TempPath) : Bool :=
  (List.range tr.length).any fun j =>
    (List.range tr.length).any fun i =>
      decide (j < i) && (tr[j]?.any (isUnlinkOf p)) && (tr[i]?.any (isCreateOf q))

/-- Does some engine extraction call in the trace use `st` as start offset? -/
def extractUsesStart (tr : List Event) (st : ℚ) : Bool :=
  tr.any fun e =>
    match e with
    | Event.engineExtract _ s _ _ => decide (s = st)
    | _ => false

/-- Does some engine extraction call in the trace use `du` as duration? -/
def extractUsesDuration (tr : List Event) (du : ℚ) : Bool :=
  tr.any fun e =>
    match e with
    | Event.engineExtract _ _ dur _ => decide (dur = du)
    | _ => false

/-- A concrete two-record run used as a witness: the first record is a valid
point extraction, the second fails validation (`endTime = startTime`). -/
def sampleItems : List ItemData :=
  [{ fileName := none, fileExtension := none, binaryPropertyName := "data",
     op := OpParams.extractSegment
       { startTime := 0, endTime := 10, customFilename := "",
         outputBinaryPropertyName := "data" },
     probeOut := none },
   { fileName := none, fileExtension := none, binaryPropertyName := "data",
     op := OpParams.extractSegment
       { startTime := 10, endTime := 10, customFilename := "",
         outputBinaryPropertyName := "data" },
     probeOut := none }]

/-- Well-behaved external world for the sample run. -/
def sampleOrc : ℕ → Oracles :=
  fun _ => { probeExec := none, engineResult := fun _ => none,
             pointEngineResult := none, unlinkOk := fun _ => true }

/-! ## Behaviour of the planning loop -/

/-- When the step is non-positive and `currentStart` stays below
`totalDuration`, the loop never exits: no fuel is enough. -/
lemma planLoop_none_of_nonpos_step {L o T : ℚ} (hstep : L - o ≤ 0) :
    ∀ (fuel : ℕ) (cs : ℚ) (idx : ℕ), cs < T →
      planLoop L o T fuel cs idx = none := by
  intro fuel
  induction fuel with
  | zero => intro cs idx _; rfl
  | succ n ih =>
    intro cs idx hcs
    have hnext : cs + (L - o) < T := by linarith
    simp only [planLoop, if_pos hcs, ih (cs + (L - o)) (idx + 1) hnext]

/-- Positive-step runs of the loop: starting from the j-th state, a run with
enough fuel returns exactly the segments `j, j+1, …, segCount - 1`, each the
2-decimal rounding of the corresponding raw segment. -/
lemma planLoop_run {L o T : ℚ} (hstep : 0 < L - o) :
    ∀ (fuel j : ℕ), segCount L o T - j < fuel →
      planLoop L o T fuel ((j : ℚ) * (L - o)) j =
        some ((List.range' j (segCount L o T - j)).map
          (fun k => roundSeg (rawSeg L o T k))) := by
  intro fuel
  induction fuel with
  | zero => intro j h; exact absurd h (Nat.not_lt_zero _)
  | succ n ih =>
    intro j hfuel
    by_cases hcs : (j : ℚ) * (L - o) < T
    · have hjlt : j < segCount L o T := by
        have h1 : (j : ℚ) < T / (L - o) := (lt_div_iff₀ hstep).mpr hcs
        have h2 : (j : ℤ) < ⌈T / (L - o)⌉ := Int.lt_ceil.mpr (by exact_mod_cast h1)
        exact Int.lt_toNat.mpr h2
      have hrec : ((j : ℚ) * (L - o)) + (L - o) = ((j + 1 : ℕ) : ℚ) * (L - o) := by
        push_cast; ring
      have hfuel2 : segCount L o T - (j + 1) < n := by omega
      have hsub : segCount L o T - j = (segCount L o T - (j + 1)) + 1 := by omega
      simp only [planLoop, if_pos hcs, hrec, ih (j + 1) hfuel2]
      rw [hsub, List.range'_succ, List.map_cons]
      refine congrArg some (congrArg₂ _ ?_ rfl)
      simp [roundSeg, rawSeg, rawStart, rawEnd]
    · have hge : segCount L o T ≤ j := by
        have h1 : T ≤ (j : ℚ) * (L - o) := le_of_not_lt hcs
        have h2 : T / (L - o) ≤ (j : ℚ) := (div_le_iff₀ hstep).mpr h1
        have h3 : ⌈T / (L - o)⌉ ≤ (j : ℤ) := Int.ceil_le.mpr (by exact_mod_cast h2)
        exact Int.toNat_le.mpr h3
      have hz : segCount L o T - j = 0 := by omega
      simp [planLoop, if_neg hcs, hz]

/-- For a positive step the Calculate Segments loop terminates and produces
the roundings of the raw segments `0 … segCount - 1`. -/
lemma calcSegments_eq {L o T : ℚ} (hstep : 0 < L - o) :
    calcSegments L o T =
      some ((List.range (segCount L o T)).map (fun k => roundSeg (rawSeg L o T k))) := by
  have h := planLoop_run (T := T) hstep (planFuel L o T) 0
    (by simp only [planFuel, Nat.sub_zero]; omega)
  simpa [calcSegments, List.range_eq_range'] using h

/-! ## Claims C1 - C4: the segment plan -/

/-- Claim C1 (amended): for `totalDuration > 0`, `segmentLength > 0`,
`0 ≤ overlap < segmentLength`, with no raw boundary on a rounding tie (so
that the 2-decimal rounding of each stored boundary agrees between the
double of the source and the exact rational), the emitted plan is the
2-decimal rounding of the raw segments, and the raw (unrounded) boundaries
satisfy every invariant of the claim: the first start is 0, the last end is
exactly `totalDuration`, every length is at most `segmentLength`, and
consecutive starts advance by `segmentLength - overlap`.  The reported
(rounded) boundaries themselves can violate the maximal-length and
step-advance conditions, see the counterexample theorem. -/
theorem c1_amended_raw_plan_invariants (L o T : ℚ) (hT : 0 < T) (hL : 0 < L)
    (ho : 0 ≤ o) (hoL : o < L)
    (hties : ∀ k, k < segCount L o T →
      isCentiTie (rawStart L o k) = false ∧ isCentiTie (rawEnd L o T k) = false) :
    calcSegments L o T =
      some ((List.range (segCount L o T)).map (fun k => roundSeg (rawSeg L o T k))) ∧
    0 < segCount L o T ∧
    rawStart L o 0 = 0 ∧
    rawEnd L o T (segCount L o T - 1) = T ∧
    (∀ k, rawEnd L o T k - rawStart L o k ≤ L) ∧
    (∀ k, rawStart L o (k + 1) = rawStart L o k + (L - o)) := by
  have hstep : 0 < L - o := by linarith
  have hpos : 0 < segCount L o T := by
    have h1 : (0 : ℤ) < ⌈T / (L - o)⌉ := Int.ceil_pos.mpr (div_pos hT hstep)
    exact Int.lt_toNat.mpr h1
  have hceil : ((segCount L o T : ℕ) : ℤ) = ⌈T / (L - o)⌉ := by
    have : (0 : ℤ) ≤ ⌈T / (L - o)⌉ := le_of_lt (Int.ceil_pos.mpr (div_pos hT hstep))
    simp [segCount, Int.toNat_of_nonneg this]
  have hTle : T ≤ (segCount L o T : ℚ) * (L - o) := by
    have h1 : T / (L - o) ≤ (⌈T / (L - o)⌉ : ℚ) := Int.le_ceil _
    have h2 : ((⌈T / (L - o)⌉ : ℤ) : ℚ) = ((segCount L o T : ℕ) : ℚ) := by
      exact_mod_cast congrArg (fun z : ℤ => (z : ℚ)) hceil.symm
    rw [h2] at h1
    exact (div_le_iff₀ hstep).mp h1
  refine ⟨calcSegments_eq hstep, hpos, by simp [rawStart], ?_, ?_, ?_⟩
  · have hcast : ((segCount L o T - 1 : ℕ) : ℚ) = (segCount L o T : ℚ) - 1 := by
      have : (1 : ℕ) ≤ segCount L o T := hpos
      push_cast [Nat.cast_sub this]
      ring
    refine min_eq_right ?_
    rw [rawStart, hcast]
    nlinarith
  · intro k
    have := min_le_left (rawStart L o k + L) T
    have h1 : rawEnd L o T k ≤ rawStart L o k + L := this
    linarith
  · intro k
    simp only [rawStart]
    push_cast
    ring

unseal Rat.mul Rat.add Rat.sub Rat.inv in
/-- Witness for C1 (amended) at `totalDuration = 95`, `segmentLength = 30`,
`overlap = 0`: every boundary is an integer, hence tie-free. -/
theorem c1_amended_raw_plan_invariants_witness :
    (0 : ℚ) < 95 ∧ (0 : ℚ) < 30 ∧ (0 : ℚ) ≤ 0 ∧ (0 : ℚ) < 30 ∧
    (∀ k, k < segCount 30 0 95 →
      isCentiTie (rawStart 30 0 k) = false ∧ isCentiTie (rawEnd 30 0 95 k) = false) ∧
    (calcSegments 30 0 95 =
      some ((List.range (segCount 30 0 95)).map (fun k => roundSeg (rawSeg 30 0 95 k))) ∧
    0 < segCount 30 0 95 ∧
    rawStart 30 0 0 = 0 ∧
    rawEnd 30 0 95 (segCount 30 0 95 - 1) = 95 ∧
    (∀ k, rawEnd 30 0 95 k - rawStart 30 0 k ≤ 30) ∧
    (∀ k, rawStart 30 0 (k + 1) = rawStart 30 0 k + (30 - 0))) :=
  ⟨by norm_num, by norm_num, le_refl 0, by norm_num, by decide,
    c1_amended_raw_plan_invariants 30 0 95 (by norm_num) (by norm_num)
      (le_refl 0) (by norm_num) (by decide)⟩

unseal Rat.mul Rat.add Rat.sub Rat.inv in
/-- Counterexample to claim C1 as stated: at `totalDuration = 0.03`,
`segmentLength = 0.014`, `overlap = 0.002` the reported (rounded) plan is
`[(0, 0.01), (0.01, 0.03), (0.02, 0.03)]`; its second segment has length
`0.02 > segmentLength = 0.014` and its second start is `0.01`, not
`0 + (segmentLength - overlap) = 0.012`, so the plans the operation emits do
not satisfy the invariant as claimed.  Every rounded boundary here
(0.014 → 0.01, 0.012 → 0.01, 0.026 → 0.03, 0.024 → 0.02, 0.03 → 0.03) is at
least 0.001 away from a half-centisecond tie, so the doubles of the source
round to the same plan. -/
theorem c1_reported_plan_violates_invariants :
    ¬ planSatisfies (7/500) (1/500) (3/100) := by
  intro hcl
  rcases hcl with ⟨segs, hplan, h1, h2, h3, h4⟩
  have he : calcSegments (7/500) (1/500) (3/100) =
      some [⟨0, 0, 1/100⟩, ⟨1, 1/100, 3/100⟩, ⟨2, 1/50, 3/100⟩] := by decide
  rw [he] at hplan
  injection hplan with h
  subst h
  have h5 := h3 ⟨1, 1/100, 3/100⟩ (by simp)
  norm_num at h5

/-- Claim C3: the code has no validation of `overlap ≥ segmentLength`.  On
such inputs (with positive duration) the loop body never advances
`currentStart`, so the `while` loop never exits: for every fuel the loop is
still running, and the operation neither fails with
`InvalidSegmentationParameters` (no such check exists in the code) nor
terminates.  This contradicts the claim, which demands a validation
failure — the code is the defective side (it hangs, growing the segments
array forever). -/
theorem c3_nonpos_step_never_terminates (L o T : ℚ) (hlo : L ≤ o) (hT : 0 < T) :
    calcSegments L o T = none ∧
    (∀ fuel idx : ℕ, planLoop L o T fuel 0 idx = none) := by
  have hstep : L - o ≤ 0 := by linarith
  exact ⟨planLoop_none_of_nonpos_step hstep _ _ _ hT,
    fun fuel idx => planLoop_none_of_nonpos_step hstep fuel 0 idx hT⟩

/-- Witness for C3 at `segmentLength = 30`, `overlap = 30`,
`totalDuration = 1`. -/
theorem c3_nonpos_step_never_terminates_witness :
    (30 : ℚ) ≤ 30 ∧ (0 : ℚ) < 1 ∧
    (calcSegments 30 30 1 = none ∧ ∀ fuel idx : ℕ, planLoop 30 30 1 fuel 0 idx = none) :=
  ⟨le_refl 30, by norm_num,
    c3_nonpos_step_never_terminates 30 30 1 (le_refl 30) (by norm_num)⟩

unseal Rat.mul Rat.add Rat.sub Rat.inv in
/-- Claim C4: the code has no validation of `totalDuration ≤ 0` either.  A
probe answer of `Duration: 00:00:00.00` yields `totalDuration = 0`; the loop
exits immediately and the operation **succeeds**, emitting
`{totalDuration: 0, segmentCount: 0, segments: []}` with no binary payload —
a silently-empty plan, not the validation failure the claim demands. -/
theorem c4_zero_duration_returns_empty_plan :
    runItem 0
      { fileName := none, fileExtension := none, binaryPropertyName := "data",
        op := OpParams.calculateSegments { segmentLength := 30, overlap := 0, outputSegments := false },
        probeOut := some (0, 0, 0) }
      { probeExec := none, engineResult := fun _ => none, pointEngineResult := none,
        unlinkOk := fun _ => true } =
    some (Except.ok
      { json := JsonOut.planSummary 0 30 0 0 [], binary := [], pairedItem := 0 },
      [Event.writeTemp (TempPath.input 0 "m4a"), Event.engineProbe (TempPath.input 0 "m4a"),
        Event.unlinkAttempt (TempPath.input 0 "m4a") true]) := by
  decide

/-! ## Claim C5: time-range validation, and C10: filename fallback -/

/-- Claim C5: in point extraction, `endTime <= startTime` throws
`InvalidTimeRange` before any path is allocated, any file is written, or any
engine call is made: the event trace is empty. -/
theorem c5_invalid_time_range_before_effects (i : ℕ) (d : ItemData)
    (p : ExtractParams) (orc : Oracles) (hop : d.op = OpParams.extractSegment p)
    (hle : p.endTime ≤ p.startTime) :
    runItem i d orc = some (Except.error ProcError.invalidTimeRange, []) := by
  simp [runItem, hop, runExtract, if_pos hle]

/-- Witness for C5: `startTime = 10`, `endTime = 10` (scenario C). -/
theorem c5_invalid_time_range_before_effects_witness :
    (10 : ℚ) ≤ 10 ∧
    runItem 0
      { fileName := none, fileExtension := none, binaryPropertyName := "data",
        op := OpParams.extractSegment
          { startTime := 10, endTime := 10, customFilename := "",
            outputBinaryPropertyName := "data" },
        probeOut := none }
      { probeExec := none, engineResult := fun _ => none, pointEngineResult := none,
        unlinkOk := fun _ => true } =
      some (Except.error ProcError.invalidTimeRange, []) :=
  ⟨le_refl 10,
    c5_invalid_time_range_before_effects 0 _ _ _ rfl (le_refl 10)⟩

/-- Claim C10: with an empty Custom Filename, point extraction falls back to
the generated pattern
`{originalNameWithoutExtension}_{startTime}_{endTime}.{fileExtension}`, and
an absent input filename gives base name `audio`. -/
theorem c10_empty_custom_filename_falls_back (i : ℕ) (d : ItemData)
    (p : ExtractParams) (orc : Oracles) (hop : d.op = OpParams.extractSegment p)
    (hcf : p.customFilename = "") (hlt : p.startTime < p.endTime)
    (heng : orc.pointEngineResult = none) :
    runItem i d orc =
      some (Except.ok
        { json := JsonOut.extractSummary p.startTime p.endTime (p.endTime - p.startTime),
          binary := [⟨p.outputBinaryPropertyName,
            stripExt (originalName d.fileName) ++ "_" ++
              jsNumToString p.startTime ++ "_" ++ jsNumToString p.endTime ++ "." ++
              fileExtOf d.fileExtension⟩],
          pairedItem := i },
        [Event.writeTemp (TempPath.input i (fileExtOf d.fileExtension)),
          Event.engineExtract (TempPath.input i (fileExtOf d.fileExtension)) p.startTime
            (p.endTime - p.startTime) (TempPath.pointOutput i (fileExtOf d.fileExtension)),
          Event.readTemp (TempPath.pointOutput i (fileExtOf d.fileExtension)),
          Event.unlinkAttempt (TempPath.input i (fileExtOf d.fileExtension))
            (orc.unlinkOk (TempPath.input i (fileExtOf d.fileExtension))),
          Event.unlinkAttempt (TempPath.pointOutput i (fileExtOf d.fileExtension))
            (orc.unlinkOk (TempPath.pointOutput i (fileExtOf d.fileExtension)))]) ∧
    originalName none = "audio" := by
  refine ⟨?_, rfl⟩
  simp [runItem, hop, runExtract, if_neg (not_le.mpr hlt), heng, hcf]

unseal Rat.mul Rat.add Rat.sub Rat.inv in
/-- Witness for C10: no input filename, default extension, `startTime = 10`,
`endTime = 20` — the generated name is `audio_10_20.m4a`. -/
theorem c10_empty_custom_filename_falls_back_witness :
    (runItem 0
      { fileName := none, fileExtension := none, binaryPropertyName := "data",
        op := OpParams.extractSegment
          { startTime := 10, endTime := 20, customFilename := "",
            outputBinaryPropertyName := "data" },
        probeOut := none }
      { probeExec := none, engineResult := fun _ => none, pointEngineResult := none,
        unlinkOk := fun _ => true } =
      some (Except.ok
        { json := JsonOut.extractSummary 10 20 (20 - 10),
          binary := [⟨"data",
            stripExt (originalName none) ++ "_" ++
              jsNumToString 10 ++ "_" ++ jsNumToString 20 ++ "." ++ fileExtOf none⟩],
          pairedItem := 0 },
        [Event.writeTemp (TempPath.input 0 (fileExtOf none)),
          Event.engineExtract (TempPath.input 0 (fileExtOf none)) 10 (20 - 10)
            (TempPath.pointOutput 0 (fileExtOf none)),
          Event.readTemp (TempPath.pointOutput 0 (fileExtOf none)),
          Event.unlinkAttempt (TempPath.input 0 (fileExtOf none)) true,
          Event.unlinkAttempt (TempPath.pointOutput 0 (fileExtOf none)) true]) ∧
      originalName none = "audio") ∧
    stripExt (originalName none) ++ "_" ++ jsNumToString 10 ++ "_" ++
      jsNumToString 20 ++ "." ++ fileExtOf none = "audio_10_20.m4a" :=
  ⟨c10_empty_custom_filename_falls_back 0 _
      { startTime := 10, endTime := 20, customFilename := "",
        outputBinaryPropertyName := "data" }
      _ rfl rfl (by norm_num) rfl,
    by decide⟩

/-! ## Traces of batch extraction and cleanup -/

/-- Trace of the batch loop when every engine call succeeds: per segment, one
engine call followed by one read-back; entries in segment order; one
allocated output path per segment. -/
lemma batchLoop_allOk (i : ℕ) (ext : String) (ip : TempPath) (bpn nwe : String) :
    ∀ segs : List Segment,
      batchLoop i ext ip bpn nwe (fun _ => none) segs =
        (Except.ok (segs.map (segEntry bpn nwe ext)),
          segs.flatMap (fun sg =>
            [Event.engineExtract ip sg.start (sg.«end» - sg.start)
                (TempPath.segOutput i sg.index ext),
              Event.readTemp (TempPath.segOutput i sg.index ext)]),
          segs.map fun sg => TempPath.segOutput i sg.index ext) := by
  intro segs
  induction segs with
  | nil => simp [batchLoop]
  | cons sg rest ih => simp [batchLoop, ih, Except.map]

/-- In every batch run the files the trace creates are exactly the allocated
output paths. -/
lemma batchLoop_created_eq_paths (i : ℕ) (ext : String) (ip : TempPath)
    (bpn nwe : String) (eng : ℕ → Option String) :
    ∀ segs : List Segment,
      createdPaths (batchLoop i ext ip bpn nwe eng segs).2.1 =
        (batchLoop i ext ip bpn nwe eng segs).2.2 := by
  intro segs
  induction segs with
  | nil => simp [batchLoop, createdPaths]
  | cons sg rest ih =>
    cases he : eng sg.index with
    | some diag => simp [batchLoop, he, createdPaths]
    | none =>
      rcases hbl : batchLoop i ext ip bpn nwe eng rest with ⟨res, evs, paths⟩
      rw [hbl] at ih
      simp only [batchLoop, he, hbl]
      simpa [createdPaths] using ih

lemma createdPaths_append (xs ys : List Event) :
    createdPaths (xs ++ ys) = createdPaths xs ++ createdPaths ys := by
  induction xs with
  | nil => simp [createdPaths]
  | cons e rest ih => cases e <;> simp [createdPaths, ih]

lemma createdPaths_unlink_map (f : TempPath → Bool) (l : List TempPath) :
    createdPaths (l.map fun q => Event.unlinkAttempt q (f q)) = [] := by
  induction l with
  | nil => rfl
  | cons a rest ih => simpa [createdPaths] using ih

lemma unlinkedPaths_append (xs ys : List Event) :
    unlinkedPaths (xs ++ ys) = unlinkedPaths xs ++ unlinkedPaths ys := by
  simp [unlinkedPaths, List.filterMap_append]

lemma unlinkedPaths_unlink_map (f : TempPath → Bool) (l : List TempPath) :
    unlinkedPaths (l.map fun q => Event.unlinkAttempt q (f q)) = l := by
  induction l with
  | nil => rfl
  | cons a rest ih =>
    simp only [unlinkedPaths, List.map_cons, List.filterMap_cons] at ih ⊢
    simp [ih]

/-- The result component of a record run does not depend on the unlink
oracle: a failing deletion influences nothing the operation reports. -/
lemma runItem_result_ignores_unlink (i : ℕ) (d : ItemData) (pe : Option String)
    (er : ℕ → Option String) (per : Option String) (u₁ u₂ : TempPath → Bool) :
    (runItem i d ⟨pe, er, per, u₁⟩).map Prod.fst =
      (runItem i d ⟨pe, er, per, u₂⟩).map Prod.fst := by
  obtain ⟨fn, fe, bpn, op, po⟩ := d
  cases op with
  | extractSegment p =>
    by_cases hle : p.endTime ≤ p.startTime
    · simp [runItem, runExtract, hle]
    · cases per <;> simp [runItem, runExtract, hle]
  | calculateSegments p =>
    cases pe with
    | some diag => simp [runItem, runCalc]
    | none =>
      cases po with
      | none => simp [runItem, runCalc]
      | some trip =>
        obtain ⟨h, m, s⟩ := trip
        cases hcs : calcSegments p.segmentLength p.overlap
            ((h : ℚ) * 3600 + (m : ℚ) * 60 + s) with
        | none => simp [runItem, runCalc, hcs]
        | some segs =>
          cases hout : p.outputSegments with
          | false => simp [runItem, runCalc, hcs, hout]
          | true =>
            rcases hbl : batchLoop i (fileExtOf fe) (TempPath.input i (fileExtOf fe))
                bpn (stripExt (originalName fn)) er segs with ⟨res, evs, paths⟩
            cases res <;> simp [runItem, runCalc, hcs, hout, hbl]

/-- On every terminating path (normal completion, validation failure, engine
failure) every file the processing of the record created has an unlink
attempt in
the same trace. -/
lemma runItem_created_unlinked (i : ℕ) (d : ItemData) (orc : Oracles)
    (res : Except ProcError OutputRecord) (tr : List Event)
    (hrun : runItem i d orc = some (res, tr)) :
    ∀ q ∈ createdPaths tr, q ∈ unlinkedPaths tr := by
  obtain ⟨fn, fe, bpn, op, po⟩ := d
  obtain ⟨pe, er, per, u⟩ := orc
  cases op with
  | extractSegment p =>
    by_cases hle : p.endTime ≤ p.startTime
    · simp [runItem, runExtract, hle] at hrun
      rcases hrun with ⟨h1, h2⟩
      subst h2
      simp [createdPaths]
    · cases per with
      | some diag =>
        simp [runItem, runExtract, hle] at hrun
        rcases hrun with ⟨h1, h2⟩
        subst h2
        simp [createdPaths, unlinkedPaths]
      | none =>
        simp [runItem, runExtract, hle] at hrun
        rcases hrun with ⟨h1, h2⟩
        subst h2
        simp [createdPaths, unlinkedPaths]
  | calculateSegments p =>
    cases pe with
    | some diag =>
      simp [runItem, runCalc] at hrun
      rcases hrun with ⟨h1, h2⟩
      subst h2
      simp [createdPaths, unlinkedPaths]
    | none =>
      cases po with
      | none =>
        simp [runItem, runCalc] at hrun
        rcases hrun with ⟨h1, h2⟩
        subst h2
        simp [createdPaths, unlinkedPaths]
      | some trip =>
        obtain ⟨h, m, s⟩ := trip
        cases hcs : calcSegments p.segmentLength p.overlap
            ((h : ℚ) * 3600 + (m : ℚ) * 60 + s) with
        | none => simp [runItem, runCalc, hcs] at hrun
        | some segs =>
          cases hout : p.outputSegments with
          | false =>
            simp [runItem, runCalc, hcs, hout] at hrun
            rcases hrun with ⟨h1, h2⟩
            subst h2
            simp [createdPaths, unlinkedPaths]
          | true =>
            rcases hbl : batchLoop i (fileExtOf fe) (TempPath.input i (fileExtOf fe))
                bpn (stripExt (originalName fn)) er segs with ⟨bres, evs, paths⟩
            have hc := batchLoop_created_eq_paths i (fileExtOf fe)
              (TempPath.input i (fileExtOf fe)) bpn (stripExt (originalName fn)) er segs
            rw [hbl] at hc
            simp only [] at hc
            cases bres with
            | error e =>
              simp [runItem, runCalc, hcs, hout, hbl] at hrun
              rcases hrun with ⟨h1, h2⟩
              subst h2
              intro q hq
              simp only [createdPaths_append, createdPaths, createdPaths_unlink_map,
                List.mem_append, List.mem_cons, List.not_mem_nil, or_false, hc,
                List.mem_singleton] at hq
              simp only [unlinkedPaths_append, unlinkedPaths, unlinkedPaths_unlink_map,
                List.filterMap_cons, List.filterMap_nil, List.mem_append,
                List.mem_singleton]
              rcases hq with hq | hq
              · simp [hq]
              · simp [hq]
            | ok entries =>
              simp [runItem, runCalc, hcs, hout, hbl] at hrun
              rcases hrun with ⟨h1, h2⟩
              subst h2
              intro q hq
              simp only [createdPaths_append, createdPaths, createdPaths_unlink_map,
                List.mem_append, List.mem_cons, List.not_mem_nil, or_false, hc,
                List.mem_singleton] at hq
              simp only [unlinkedPaths_append, unlinkedPaths, unlinkedPaths_unlink_map,
                List.filterMap_cons, List.filterMap_nil, List.mem_append,
                List.mem_singleton]
              rcases hq with hq | hq
              · simp [hq]
              · simp [hq]

/-- Claim C7: after processing any record, on every exit path the run reaches
(normal completion, duration/time-range validation failure, or engine
failure), an unlink is attempted for every temp file that was created, and
the outcome of the unlink attempts influences neither the reported result
nor the chosen error: the same result arises under any unlink oracle. -/
theorem c7_cleanup_every_exit_path_unlink_failures_swallowed
    (i : ℕ) (d : ItemData) (pe : Option String) (er : ℕ → Option String)
    (per : Option String) (u₁ u₂ : TempPath → Bool)
    (res : Except ProcError OutputRecord) (tr : List Event)
    (hrun : runItem i d ⟨pe, er, per, u₁⟩ = some (res, tr)) :
    (∀ q ∈ createdPaths tr, q ∈ unlinkedPaths tr) ∧
    (runItem i d ⟨pe, er, per, u₂⟩).map Prod.fst = some res := by
  refine ⟨runItem_created_unlinked i d _ res tr hrun, ?_⟩
  rw [← runItem_result_ignores_unlink i d pe er per u₁ u₂, hrun]
  rfl

unseal Rat.mul Rat.add Rat.sub Rat.inv in
/-- Witness for C7: a two-segment batch run in which every unlink attempt
fails (`u₁` reports failure for every path); each created temp file still
gets its unlink attempt, and the reported result is the same as under an
oracle where every unlink succeeds. -/
theorem c7_cleanup_every_exit_path_unlink_failures_swallowed_witness :
    (∀ q ∈ createdPaths
        [Event.writeTemp (TempPath.input 0 "m4a"),
          Event.engineProbe (TempPath.input 0 "m4a"),
          Event.engineExtract (TempPath.input 0 "m4a") 0 30 (TempPath.segOutput 0 0 "m4a"),
          Event.readTemp (TempPath.segOutput 0 0 "m4a"),
          Event.engineExtract (TempPath.input 0 "m4a") 30 30 (TempPath.segOutput 0 1 "m4a"),
          Event.readTemp (TempPath.segOutput 0 1 "m4a"),
          Event.unlinkAttempt (TempPath.segOutput 0 0 "m4a") false,
          Event.unlinkAttempt (TempPath.segOutput 0 1 "m4a") false,
          Event.unlinkAttempt (TempPath.input 0 "m4a") false],
      q ∈ unlinkedPaths
        [Event.writeTemp (TempPath.input 0 "m4a"),
          Event.engineProbe (TempPath.input 0 "m4a"),
          Event.engineExtract (TempPath.input 0 "m4a") 0 30 (TempPath.segOutput 0 0 "m4a"),
          Event.readTemp (TempPath.segOutput 0 0 "m4a"),
          Event.engineExtract (TempPath.input 0 "m4a") 30 30 (TempPath.segOutput 0 1 "m4a"),
          Event.readTemp (TempPath.segOutput 0 1 "m4a"),
          Event.unlinkAttempt (TempPath.segOutput 0 0 "m4a") false,
          Event.unlinkAttempt (TempPath.segOutput 0 1 "m4a") false,
          Event.unlinkAttempt (TempPath.input 0 "m4a") false]) ∧
    (runItem 0
      { fileName := none, fileExtension := none, binaryPropertyName := "data",
        op := OpParams.calculateSegments
          { segmentLength := 30, overlap := 0, outputSegments := true },
        probeOut := some (0, 0, 60) }
      { probeExec := none, engineResult := fun _ => none, pointEngineResult := none,
        unlinkOk := fun _ => true }).map Prod.fst =
      some (Except.ok
        { json := JsonOut.planSummary 60 30 0 2 [⟨0, 0, 30⟩, ⟨1, 30, 60⟩],
          binary := [⟨"data_1", "audio_0_30.m4a"⟩, ⟨"data_2", "audio_30_60.m4a"⟩],
          pairedItem := 0 }) :=
  c7_cleanup_every_exit_path_unlink_failures_swallowed 0
    { fileName := none, fileExtension := none, binaryPropertyName := "data",
      op := OpParams.calculateSegments
        { segmentLength := 30, overlap := 0, outputSegments := true },
      probeOut := some (0, 0, 60) }
    none (fun _ => none) none (fun _ => false) (fun _ => true)
    (Except.ok
      { json := JsonOut.planSummary 60 30 0 2 [⟨0, 0, 30⟩, ⟨1, 30, 60⟩],
        binary := [⟨"data_1", "audio_0_30.m4a"⟩, ⟨"data_2", "audio_30_60.m4a"⟩],
        pairedItem := 0 })
    [Event.writeTemp (TempPath.input 0 "m4a"),
      Event.engineProbe (TempPath.input 0 "m4a"),
      Event.engineExtract (TempPath.input 0 "m4a") 0 30 (TempPath.segOutput 0 0 "m4a"),
      Event.readTemp (TempPath.segOutput 0 0 "m4a"),
      Event.engineExtract (TempPath.input 0 "m4a") 30 30 (TempPath.segOutput 0 1 "m4a"),
      Event.readTemp (TempPath.segOutput 0 1 "m4a"),
      Event.unlinkAttempt (TempPath.segOutput 0 0 "m4a") false,
      Event.unlinkAttempt (TempPath.segOutput 0 1 "m4a") false,
      Event.unlinkAttempt (TempPath.input 0 "m4a") false]
    (by decide)

/-- Full trace of a successful batch run (probe ok, every engine call ok):
the input write and probe, then per segment in order one engine call and one
read-back, then the unlink attempts of all output paths, then the unlink of
the input. -/
lemma runCalc_allOk_trace (i : ℕ) (fn fe : Option String) (bpn : String)
    (p : CalcSegParams) (per : Option String) (u : TempPath → Bool)
    (h m : ℕ) (s : ℚ) (segs : List Segment)
    (hout : p.outputSegments = true)
    (hplan : calcSegments p.segmentLength p.overlap
      ((h : ℚ) * 3600 + (m : ℚ) * 60 + s) = some segs) :
    runItem i
      { fileName := fn, fileExtension := fe, binaryPropertyName := bpn,
        op := OpParams.calculateSegments p, probeOut := some (h, m, s) }
      { probeExec := none, engineResult := fun _ => none, pointEngineResult := per,
        unlinkOk := u } =
    some (Except.ok
      { json := JsonOut.planSummary ((h : ℚ) * 3600 + (m : ℚ) * 60 + s)
          p.segmentLength p.overlap segs.length segs,
        binary := segs.map (segEntry bpn (stripExt (originalName fn)) (fileExtOf fe)),
        pairedItem := i },
      [Event.writeTemp (TempPath.input i (fileExtOf fe)),
        Event.engineProbe (TempPath.input i (fileExtOf fe))] ++
      (segs.flatMap fun sg =>
        [Event.engineExtract (TempPath.input i (fileExtOf fe)) sg.start
            (sg.«end» - sg.start) (TempPath.segOutput i sg.index (fileExtOf fe)),
          Event.readTemp (TempPath.segOutput i sg.index (fileExtOf fe))]) ++
      ((segs.map fun sg => TempPath.segOutput i sg.index (fileExtOf fe)).map
        fun q => Event.unlinkAttempt q (u q)) ++
      [Event.unlinkAttempt (TempPath.input i (fileExtOf fe))
        (u (TempPath.input i (fileExtOf fe)))]) := by
  simp [runItem, runCalc, hplan, hout, batchLoop_allOk]

/-- Claim C6 (amended): in a successful batch run the output file of each segment
is read back into memory before the file of the next segment is created — the per
segment trace block is `[engine call, read]` — but the output temp files are
**not** deleted one by one: every unlink attempt happens after all segments
are processed, when the scope ends, so at peak all segment output files plus
the input file exist together. -/
theorem c6_amended_read_then_batch_end_cleanup (i : ℕ) (fn fe : Option String)
    (bpn : String) (p : CalcSegParams) (per : Option String) (u : TempPath → Bool)
    (h m : ℕ) (s : ℚ) (segs : List Segment)
    (hout : p.outputSegments = true)
    (hplan : calcSegments p.segmentLength p.overlap
      ((h : ℚ) * 3600 + (m : ℚ) * 60 + s) = some segs) :
    runItem i
      { fileName := fn, fileExtension := fe, binaryPropertyName := bpn,
        op := OpParams.calculateSegments p, probeOut := some (h, m, s) }
      { probeExec := none, engineResult := fun _ => none, pointEngineResult := per,
        unlinkOk := u } =
    some (Except.ok
      { json := JsonOut.planSummary ((h : ℚ) * 3600 + (m : ℚ) * 60 + s)
          p.segmentLength p.overlap segs.length segs,
        binary := segs.map (segEntry bpn (stripExt (originalName fn)) (fileExtOf fe)),
        pairedItem := i },
      [Event.writeTemp (TempPath.input i (fileExtOf fe)),
        Event.engineProbe (TempPath.input i (fileExtOf fe))] ++
      (segs.flatMap fun sg =>
        [Event.engineExtract (TempPath.input i (fileExtOf fe)) sg.start
            (sg.«end» - sg.start) (TempPath.segOutput i sg.index (fileExtOf fe)),
          Event.readTemp (TempPath.segOutput i sg.index (fileExtOf fe))]) ++
      ((segs.map fun sg => TempPath.segOutput i sg.index (fileExtOf fe)).map
        fun q => Event.unlinkAttempt q (u q)) ++
      [Event.unlinkAttempt (TempPath.input i (fileExtOf fe))
        (u (TempPath.input i (fileExtOf fe)))]) :=
  runCalc_allOk_trace i fn fe bpn p per u h m s segs hout hplan

unseal Rat.mul Rat.add Rat.sub Rat.inv in
/-- Witness for C6 (amended) at a two-segment batch run. -/
theorem c6_amended_read_then_batch_end_cleanup_witness :
    calcSegments 30 0 ((0 : ℚ) * 3600 + (0 : ℚ) * 60 + 60) =
      some [⟨0, 0, 30⟩, ⟨1, 30, 60⟩] ∧
    runItem 0
      { fileName := none, fileExtension := none, binaryPropertyName := "data",
        op := OpParams.calculateSegments
          { segmentLength := 30, overlap := 0, outputSegments := true },
        probeOut := some (0, 0, 60) }
      { probeExec := none, engineResult := fun _ => none, pointEngineResult := none,
        unlinkOk := fun _ => true } =
    some (Except.ok
      { json := JsonOut.planSummary ((0 : ℚ) * 3600 + (0 : ℚ) * 60 + 60) 30 0
          ([⟨0, 0, 30⟩, ⟨1, (30 : ℚ), 60⟩] : List Segment).length
          [⟨0, 0, 30⟩, ⟨1, 30, 60⟩],
        binary := ([⟨0, 0, 30⟩, ⟨1, (30 : ℚ), 60⟩] : List Segment).map
          (segEntry "data" (stripExt (originalName none)) (fileExtOf none)),
        pairedItem := 0 },
      [Event.writeTemp (TempPath.input 0 (fileExtOf none)),
        Event.engineProbe (TempPath.input 0 (fileExtOf none))] ++
      (([⟨0, 0, 30⟩, ⟨1, (30 : ℚ), 60⟩] : List Segment).flatMap fun sg =>
        [Event.engineExtract (TempPath.input 0 (fileExtOf none)) sg.start
            (sg.«end» - sg.start) (TempPath.segOutput 0 sg.index (fileExtOf none)),
          Event.readTemp (TempPath.segOutput 0 sg.index (fileExtOf none))]) ++
      ((([⟨0, 0, 30⟩, ⟨1, (30 : ℚ), 60⟩] : List Segment).map
          fun sg => TempPath.segOutput 0 sg.index (fileExtOf none)).map
        fun q => Event.unlinkAttempt q true) ++
      [Event.unlinkAttempt (TempPath.input 0 (fileExtOf none)) true]) :=
  ⟨by decide, c6_amended_read_then_batch_end_cleanup 0 none none "data"
    { segmentLength := 30, overlap := 0, outputSegments := true }
    none (fun _ => true) 0 0 60 [⟨0, 0, 30⟩, ⟨1, 30, 60⟩] rfl (by decide)⟩

unseal Rat.mul Rat.add Rat.sub Rat.inv in
/-- Counterexample to claim C6 as stated: in a successful two-segment batch
run the output file of the second segment is created (and the first
eventually unlinked), but no unlink of the output file of the first segment
occurs before the engine call creating the file of the second segment —
deletion happens only
when the whole batch scope ends. -/
theorem c6_no_deletion_before_next_segment_file :
    ((runItem 0
      { fileName := none, fileExtension := none, binaryPropertyName := "data",
        op := OpParams.calculateSegments
          { segmentLength := 30, overlap := 0, outputSegments := true },
        probeOut := some (0, 0, 60) }
      { probeExec := none, engineResult := fun _ => none, pointEngineResult := none,
        unlinkOk := fun _ => true }).map fun pr =>
        unlinkBeforeCreate pr.2 (TempPath.segOutput 0 0 "m4a")
          (TempPath.segOutput 0 1 "m4a")) = some false ∧
    ((runItem 0
      { fileName := none, fileExtension := none, binaryPropertyName := "data",
        op := OpParams.calculateSegments
          { segmentLength := 30, overlap := 0, outputSegments := true },
        probeOut := some (0, 0, 60) }
      { probeExec := none, engineResult := fun _ => none, pointEngineResult := none,
        unlinkOk := fun _ => true }).map fun pr =>
        pr.2.any (isCreateOf (TempPath.segOutput 0 1 "m4a"))) = some true ∧
    ((runItem 0
      { fileName := none, fileExtension := none, binaryPropertyName := "data",
        op := OpParams.calculateSegments
          { segmentLength := 30, overlap := 0, outputSegments := true },
        probeOut := some (0, 0, 60) }
      { probeExec := none, engineResult := fun _ => none, pointEngineResult := none,
        unlinkOk := fun _ => true }).map fun pr =>
        pr.2.any (isUnlinkOf (TempPath.segOutput 0 0 "m4a"))) = some true := by
  refine ⟨by decide, by decide, by decide⟩

/-- Claim C9 (amended): the per-segment engine calls do **not** use the
full-precision segment boundaries — they use exactly the values stored in
the plan, i.e. the 2-decimal-rounded boundaries: each extraction call has as
start offset the `round2` of the raw start and as duration the difference
of the rounded end and rounded start.  The hypothesis that no raw boundary
sits on a rounding tie keeps the statement inside the region where the
exact-rational rounding and `toFixed` on the doubles of the source agree on
every stored boundary. -/
theorem c9_amended_extraction_uses_rounded_bounds (i : ℕ) (fn fe : Option String)
    (bpn : String) (p : CalcSegParams) (per : Option String) (u : TempPath → Bool)
    (h m : ℕ) (s : ℚ) (res : Except ProcError OutputRecord) (tr : List Event)
    (hT : 0 < (h : ℚ) * 3600 + (m : ℚ) * 60 + s) (hL : 0 < p.segmentLength)
    (ho : 0 ≤ p.overlap) (hoL : p.overlap < p.segmentLength)
    (hties : ∀ k, k < segCount p.segmentLength p.overlap
        ((h : ℚ) * 3600 + (m : ℚ) * 60 + s) →
      isCentiTie (rawStart p.segmentLength p.overlap k) = false ∧
      isCentiTie (rawEnd p.segmentLength p.overlap
        ((h : ℚ) * 3600 + (m : ℚ) * 60 + s) k) = false)
    (hout : p.outputSegments = true)
    (hrun : runItem i
      { fileName := fn, fileExtension := fe, binaryPropertyName := bpn,
        op := OpParams.calculateSegments p, probeOut := some (h, m, s) }
      { probeExec := none, engineResult := fun _ => none, pointEngineResult := per,
        unlinkOk := u } = some (res, tr)) :
    ∀ ip st du q, Event.engineExtract ip st du q ∈ tr →
      ∃ k, k < segCount p.segmentLength p.overlap ((h : ℚ) * 3600 + (m : ℚ) * 60 + s) ∧
        st = round2 (rawStart p.segmentLength p.overlap k) ∧
        du = round2 (rawEnd p.segmentLength p.overlap
            ((h : ℚ) * 3600 + (m : ℚ) * 60 + s) k)
          - round2 (rawStart p.segmentLength p.overlap k) := by
  have hstep : 0 < p.segmentLength - p.overlap := by linarith
  have hplan := calcSegments_eq (T := (h : ℚ) * 3600 + (m : ℚ) * 60 + s) hstep
  have htr := runCalc_allOk_trace i fn fe bpn p per u h m s _ hout hplan
  rw [htr] at hrun
  simp only [Option.some.injEq, Prod.mk.injEq] at hrun
  obtain ⟨hres, rfl⟩ := hrun
  intro ip st du q hmem
  simp only [List.mem_append, List.mem_cons, List.not_mem_nil, or_false,
    List.mem_flatMap, List.mem_map, List.mem_range] at hmem
  rcases hmem with (((hmem | hmem) | hmem) | hmem) | hmem
  · exact absurd hmem (by simp)
  · exact absurd hmem (by simp)
  · obtain ⟨sg, ⟨k, hk, rfl⟩, hmem | hmem⟩ := hmem
    · injection hmem with hip hst hdu hq
      exact ⟨k, hk, by simp [hst, roundSeg, rawSeg], by simp [hdu, roundSeg, rawSeg]⟩
    · exact absurd hmem (by simp)
  · obtain ⟨q2, hq2, hmem⟩ := hmem
    exact absurd hmem (by simp)
  · exact absurd hmem (by simp)

unseal Rat.mul Rat.add Rat.sub Rat.inv in
/-- Witness for C9 (amended) at a two-segment batch run; every boundary is
an integer, hence tie-free. -/
theorem c9_amended_extraction_uses_rounded_bounds_witness :
    (0 : ℚ) < ((0 : ℕ) : ℚ) * 3600 + ((0 : ℕ) : ℚ) * 60 + 60 ∧
    (∀ k, k < segCount 30 0 (((0 : ℕ) : ℚ) * 3600 + ((0 : ℕ) : ℚ) * 60 + 60) →
      isCentiTie (rawStart 30 0 k) = false ∧
      isCentiTie (rawEnd 30 0 (((0 : ℕ) : ℚ) * 3600 + ((0 : ℕ) : ℚ) * 60 + 60) k)
        = false) ∧
    (∀ ip st du q, Event.engineExtract ip st du q ∈
        [Event.writeTemp (TempPath.input 0 "m4a"),
          Event.engineProbe (TempPath.input 0 "m4a"),
          Event.engineExtract (TempPath.input 0 "m4a") 0 30 (TempPath.segOutput 0 0 "m4a"),
          Event.readTemp (TempPath.segOutput 0 0 "m4a"),
          Event.engineExtract (TempPath.input 0 "m4a") 30 30 (TempPath.segOutput 0 1 "m4a"),
          Event.readTemp (TempPath.segOutput 0 1 "m4a"),
          Event.unlinkAttempt (TempPath.segOutput 0 0 "m4a") true,
          Event.unlinkAttempt (TempPath.segOutput 0 1 "m4a") true,
          Event.unlinkAttempt (TempPath.input 0 "m4a") true] →
      ∃ k, k < segCount 30 0 (((0 : ℕ) : ℚ) * 3600 + ((0 : ℕ) : ℚ) * 60 + 60) ∧
        st = round2 (rawStart 30 0 k) ∧
        du = round2 (rawEnd 30 0 (((0 : ℕ) : ℚ) * 3600 + ((0 : ℕ) : ℚ) * 60 + 60) k)
          - round2 (rawStart 30 0 k)) :=
  ⟨by norm_num, by decide,
    c9_amended_extraction_uses_rounded_bounds 0 none none "data"
      { segmentLength := 30, overlap := 0, outputSegments := true }
      none (fun _ => true) 0 0 60
      (Except.ok
        { json := JsonOut.planSummary 60 30 0 2 [⟨0, 0, 30⟩, ⟨1, 30, 60⟩],
          binary := [⟨"data_1", "audio_0_30.m4a"⟩, ⟨"data_2", "audio_30_60.m4a"⟩],
          pairedItem := 0 })
      [Event.writeTemp (TempPath.input 0 "m4a"),
        Event.engineProbe (TempPath.input 0 "m4a"),
        Event.engineExtract (TempPath.input 0 "m4a") 0 30 (TempPath.segOutput 0 0 "m4a"),
        Event.readTemp (TempPath.segOutput 0 0 "m4a"),
        Event.engineExtract (TempPath.input 0 "m4a") 30 30 (TempPath.segOutput 0 1 "m4a"),
        Event.readTemp (TempPath.segOutput 0 1 "m4a"),
        Event.unlinkAttempt (TempPath.segOutput 0 0 "m4a") true,
        Event.unlinkAttempt (TempPath.segOutput 0 1 "m4a") true,
        Event.unlinkAttempt (TempPath.input 0 "m4a") true]
      (by norm_num) (by norm_num) (le_refl 0) (by norm_num) (by decide) rfl
      (by decide)⟩

unseal Rat.mul Rat.add Rat.sub Rat.inv in
/-- Counterexample to claim C9 as stated: at `totalDuration = 0.03`,
`segmentLength = 0.014`, `overlap = 0.002` the raw (full-precision) first
segment has duration `0.014` and the raw second start is `0.012`, yet no
engine call of the batch run uses either value — the calls use the rounded
plan values instead (e.g. the rounded second start `0.01`).  As in the C1
counterexample, every rounded boundary at this input is at least 0.001 away
from a half-centisecond tie, so the rational plan coincides with the plan
the doubles of the source produce. -/
theorem c9_extraction_does_not_use_raw_bounds :
    ((runItem 0
      { fileName := none, fileExtension := none, binaryPropertyName := "data",
        op := OpParams.calculateSegments
          { segmentLength := 7/500, overlap := 1/500, outputSegments := true },
        probeOut := some (0, 0, 3/100) }
      { probeExec := none, engineResult := fun _ => none, pointEngineResult := none,
        unlinkOk := fun _ => true }).map fun pr =>
        extractUsesDuration pr.2 (7/500)) = some false ∧
    rawEnd (7/500) (1/500) (3/100) 0 - rawStart (7/500) (1/500) 0 = 7/500 ∧
    ((runItem 0
      { fileName := none, fileExtension := none, binaryPropertyName := "data",
        op := OpParams.calculateSegments
          { segmentLength := 7/500, overlap := 1/500, outputSegments := true },
        probeOut := some (0, 0, 3/100) }
      { probeExec := none, engineResult := fun _ => none, pointEngineResult := none,
        unlinkOk := fun _ => true }).map fun pr =>
        extractUsesStart pr.2 (3/250)) = some false ∧
    rawStart (7/500) (1/500) 1 = 3/250 ∧
    ((runItem 0
      { fileName := none, fileExtension := none, binaryPropertyName := "data",
        op := OpParams.calculateSegments
          { segmentLength := 7/500, overlap := 1/500, outputSegments := true },
        probeOut := some (0, 0, 3/100) }
      { probeExec := none, engineResult := fun _ => none, pointEngineResult := none,
        unlinkOk := fun _ => true }).map fun pr =>
        extractUsesStart pr.2 (1/100)) = some true := by
  refine ⟨by decide, by decide, by decide, by decide, by decide⟩

/-! ## The item loop of execute -/

/-- Continue-on-fail mode processes every record: the run returns one record
per item (the success record, or the error record for a failed item) and no
terminating error, provided no item diverges. -/
lemma executeLoop_cof_true (orc : ℕ → Oracles) :
    ∀ (items : List ItemData) (i : ℕ),
      (∀ k d2, items[k]? = some d2 → runItem (i + k) d2 (orc (i + k)) ≠ none) →
      executeLoop true orc items i = some (recordsFrom orc i items, none) := by
  intro items
  induction items with
  | nil => intro i _; simp [executeLoop, recordsFrom]
  | cons d rest ih =>
    intro i h
    have h0 : runItem i d (orc i) ≠ none := by
      have := h 0 d (by simp)
      simpa using this
    have hrest : ∀ k d2, rest[k]? = some d2 →
        runItem (i + 1 + k) d2 (orc (i + 1 + k)) ≠ none := by
      intro k d2 hk
      have hidx : i + (k + 1) = i + 1 + k := by omega
      have := h (k + 1) d2 (by simpa using hk)
      rwa [hidx] at this
    cases hr : runItem i d (orc i) with
    | none => exact absurd hr h0
    | some pr =>
      obtain ⟨r, tr⟩ := pr
      cases r with
      | ok out => simp [executeLoop, hr, ih (i + 1) hrest, recordsFrom]
      | error e => simp [executeLoop, hr, ih (i + 1) hrest, recordsFrom]

/-- Abort mode with no failing record: same records, no error. -/
lemma executeLoop_all_ok (orc : ℕ → Oracles) :
    ∀ (items : List ItemData) (i : ℕ),
      (∀ k d2, items[k]? = some d2 →
        ∃ out tr, runItem (i + k) d2 (orc (i + k)) = some (Except.ok out, tr)) →
      executeLoop false orc items i = some (recordsFrom orc i items, none) := by
  intro items
  induction items with
  | nil => intro i _; simp [executeLoop, recordsFrom]
  | cons d rest ih =>
    intro i h
    obtain ⟨out, tr, hr⟩ := h 0 d (by simp)
    rw [Nat.add_zero] at hr
    have hrest : ∀ k d2, rest[k]? = some d2 →
        ∃ out tr, runItem (i + 1 + k) d2 (orc (i + 1 + k)) = some (Except.ok out, tr) := by
      intro k d2 hk
      have hidx : i + (k + 1) = i + 1 + k := by omega
      have := h (k + 1) d2 (by simpa using hk)
      rwa [hidx] at this
    simp [executeLoop, hr, ih (i + 1) hrest, recordsFrom]

/-- Abort mode with a first failure at position `f`: the records of the
successful prefix are kept (not rolled back), the error is reported wrapped
with the item position, and no later item is processed. -/
lemma executeLoop_fail_at (orc : ℕ → Oracles) :
    ∀ (items : List ItemData) (i f : ℕ) (e : ProcError),
      (∀ k d2, k < f → items[k]? = some d2 →
        ∃ out tr, runItem (i + k) d2 (orc (i + k)) = some (Except.ok out, tr)) →
      (∃ d2 tr, items[f]? = some d2 ∧
        runItem (i + f) d2 (orc (i + f)) = some (Except.error e, tr)) →
      executeLoop false orc items i =
        some (recordsFrom orc i (items.take f), some (i + f, e)) := by
  intro items
  induction items with
  | nil =>
    intro i f e _ hf
    obtain ⟨d2, tr, hget, _⟩ := hf
    simp at hget
  | cons d rest ih =>
    intro i f e hpre hf
    cases f with
    | zero =>
      obtain ⟨d2, tr, hget, hrun⟩ := hf
      rw [Nat.add_zero] at hrun
      simp only [List.getElem?_cons_zero, Option.some.injEq] at hget
      subst hget
      simp [executeLoop, hrun, recordsFrom]
    | succ f2 =>
      obtain ⟨out, tr, hr⟩ := hpre 0 d (Nat.succ_pos f2) (by simp)
      rw [Nat.add_zero] at hr
      have hpre2 : ∀ k d2, k < f2 → rest[k]? = some d2 →
          ∃ out tr, runItem (i + 1 + k) d2 (orc (i + 1 + k)) = some (Except.ok out, tr) := by
        intro k d2 hk hget
        have hidx : i + (k + 1) = i + 1 + k := by omega
        have := hpre (k + 1) d2 (by omega) (by simpa using hget)
        rwa [hidx] at this
      have hf2 : ∃ d2 tr2, rest[f2]? = some d2 ∧
          runItem (i + 1 + f2) d2 (orc (i + 1 + f2)) = some (Except.error e, tr2) := by
        obtain ⟨d2, tr2, hget, hrun⟩ := hf
        have hidx : i + (f2 + 1) = i + 1 + f2 := by omega
        rw [hidx] at hrun
        exact ⟨d2, tr2, by simpa using hget, hrun⟩
      have hidx2 : i + (f2 + 1) = i + 1 + f2 := by omega
      rw [hidx2]
      simp [executeLoop, hr, ih (i + 1) f2 e hpre2 hf2, recordsFrom]

/-- Claim C8: with the continue-on-fail switch set, every record is
processed in order and a failing record becomes the error record
`{json: {error: message}, binary: none, pairedItem: index}` (see
`recordsFrom` / `errRecord`) while later records are still processed; with
the switch unset, a run with no failure emits all records, and a run whose
first failure is at position `f` stops there — the error is re-raised
wrapped with the record position `f`, the records already produced for the
successful prefix are not rolled back, and no later record is processed. -/
theorem c8_continue_on_fail_and_abort_modes (orc : ℕ → Oracles)
    (items : List ItemData)
    (ht : ∀ k d2, items[k]? = some d2 → runItem k d2 (orc k) ≠ none) :
    executeModel true orc items = some (recordsFrom orc 0 items, none) ∧
    ((∀ k d2, items[k]? = some d2 →
        ∃ out tr, runItem k d2 (orc k) = some (Except.ok out, tr)) →
      executeModel false orc items = some (recordsFrom orc 0 items, none)) ∧
    (∀ f e,
      (∀ k d2, k < f → items[k]? = some d2 →
        ∃ out tr, runItem k d2 (orc k) = some (Except.ok out, tr)) →
      (∃ d2 tr, items[f]? = some d2 ∧ runItem f d2 (orc f) = some (Except.error e, tr)) →
      executeModel false orc items =
        some (recordsFrom orc 0 (items.take f), some (f, e))) := by
  refine ⟨?_, ?_, ?_⟩
  · exact executeLoop_cof_true orc items 0 (by simpa using ht)
  · intro hok
    exact executeLoop_all_ok orc items 0 (by simpa using hok)
  · intro f e hpre hf
    have := executeLoop_fail_at orc items 0 f e (by simpa using hpre) (by simpa using hf)
    simpa using this

unseal Rat.mul Rat.add Rat.sub Rat.inv in
/-- Witness for C8 on `sampleItems`: record 0 succeeds, record 1 fails
validation.  Continue-on-fail emits both records (the second as the error
record with the thrown message, no binary payload, paired to position 1);
abort mode keeps the success record of the prefix and stops at position 1
with the wrapped error. -/
theorem c8_continue_on_fail_and_abort_modes_witness :
    (executeModel true sampleOrc sampleItems =
      some (recordsFrom sampleOrc 0 sampleItems, none) ∧
    ((∀ k d2, sampleItems[k]? = some d2 →
        ∃ out tr, runItem k d2 (sampleOrc k) = some (Except.ok out, tr)) →
      executeModel false sampleOrc sampleItems =
        some (recordsFrom sampleOrc 0 sampleItems, none)) ∧
    (∀ f e,
      (∀ k d2, k < f → sampleItems[k]? = some d2 →
        ∃ out tr, runItem k d2 (sampleOrc k) = some (Except.ok out, tr)) →
      (∃ d2 tr, sampleItems[f]? = some d2 ∧
        runItem f d2 (sampleOrc f) = some (Except.error e, tr)) →
      executeModel false sampleOrc sampleItems =
        some (recordsFrom sampleOrc 0 (sampleItems.take f), some (f, e)))) ∧
    recordsFrom sampleOrc 0 sampleItems =
      [{ json := JsonOut.extractSummary 0 10 10,
         binary := [⟨"data", "audio_0_10.m4a"⟩], pairedItem := 0 },
       { json := JsonOut.errorOut "End time must be greater than start time",
         binary := [], pairedItem := 1 }] ∧
    executeModel false sampleOrc sampleItems =
      some ([⟨JsonOut.extractSummary 0 10 10, [⟨"data", "audio_0_10.m4a"⟩], 0⟩],
        some (1, ProcError.invalidTimeRange)) :=
  ⟨c8_continue_on_fail_and_abort_modes sampleOrc sampleItems
    (by
      intro k d2 hk
      match k with
      | 0 =>
        simp [sampleItems] at hk
        subst hk
        decide
      | 1 =>
        simp [sampleItems] at hk
        subst hk
        decide
      | (n + 2) => simp [sampleItems] at hk),
    by decide, by decide⟩
